import Mathlib

/-!
Verification of the `filewatch` subsystem of prom-file-server.

Shallow embedding of `internal/filewatch/filewatch.go` and proofs about it.

Modelling conventions:
* A filesystem path is modelled as its list of components (`Path`); the
  root is `[]` and `filepath.Dir` is `List.dropLast` (so the parent of the
  root is the root itself, matching `Dir("/") = "/"`).
* The filesystem's symlink state is a function `readlink : Path → Option Path`:
  `some t` models `os.Readlink` succeeding with target `t`, `none` models it
  failing (the path is not a symlink, or does not exist).
* Goroutine loops built on `select` are embedded as functions over the list
  of channel interactions in the order the `select` statements resolve them;
  the channel operations the goroutine performs are returned as an output
  trace.  Unbounded `for` loops take the yet-unconsumed input list; an empty
  input list means the goroutine is still blocked in `select`.
* `fsnotify` event operations are a bitmask, as in the fsnotify package.
-/

namespace Filewatch

/-- A filesystem path, as its list of components; `[]` is the root. -/
abbrev Path : Type := List String

/-- Models `filepath.Dir`: the parent of a path; the parent of the root is the root. -/
def Path.dir (p : Path) : Path := p.dropLast

/-- The filesystem's symlink state: `os.Readlink` as a pure function.
`some t` = the path is a symlink with target `t`; `none` = `Readlink` errors
(not a symlink, or the path does not exist). -/
abbrev ReadLink : Type := Path → Option Path

/-- The `symlink` struct of filewatch.go: one recorded chain edge,
`link` is the path found to be a symlink, `target` what it pointed to. -/
structure Symlink where
  target : Path
  link : Path
deriving DecidableEq, Repr

/-- One iteration of the `traceSymlinks` loop, as a cursor step:
if the cursor reads as a link, move to the link's target; otherwise move to
the parent, or stop (`none`) when the parent equals the cursor (root). -/
def traceStep (rl : ReadLink) (c : Path) : Option Path :=
  match rl c with
  | some t => some t
  | none => if Path.dir c = c then none else some (Path.dir c)

/-- The `traceSymlinks` function of filewatch.go, fuel-indexed because the source's loop
need not terminate: `none` means the fuel ran out before the loop's `break`;
`some chain` is the chain the Go function returns, in discovery order
(leaf-most first). -/
def traceSymlinks (rl : ReadLink) : Nat → Path → Option (List Symlink)
  | 0, _ => none
  | n + 1, path =>
    match rl path with
    | some target =>
      -- it IS a link: append the edge and continue from the target
      (traceSymlinks rl n target).map (fun rest => ⟨target, path⟩ :: rest)
    | none =>
      -- not a symlink: ascend to the parent directory
      let parent := Path.dir path
      if parent = path then
        -- at root, traversal complete
        some []
      else
        traceSymlinks rl n parent

/-- The Go loop terminates on `path` under `rl`: some fuel suffices. -/
def traceTerminates (rl : ReadLink) (path : Path) : Prop :=
  ∃ n, (traceSymlinks rl n path).isSome

/-- A filesystem whose only symlink is `["a"]`, pointing at itself. -/
def cyclicRL : ReadLink := fun p => if p = ["a"] then some ["a"] else none

/-- The tracer as §4.1 of the spec words it, for comparison with the
code's `traceSymlinks`: a cursor starts at the path; if the cursor reads
as a link, `{linkPath: cursor, target: value}` is appended and the cursor
moves to the value; otherwise the cursor ascends to its parent, stopping
when the parent equals the cursor. Fuel-indexed like the code's version. -/
def traceSpec (rl : ReadLink) : Nat → Path → Option (List Symlink)
  | 0, _ => none
  | n + 1, cursor =>
    match rl cursor with
    | some value => (traceSpec rl n value).map (fun chain => ⟨value, cursor⟩ :: chain)
    | none =>
      if Path.dir cursor = cursor then some []
      else traceSpec rl n (Path.dir cursor)

/-! ## fsnotify events and the direct file watcher (`watchFile`) -/

/-- fsnotify operation bits, as in the fsnotify package. -/
def opCreate : Nat := 1
/-- fsnotify `Write` bit. -/
def opWrite : Nat := 2
/-- fsnotify `Remove` bit. -/
def opRemove : Nat := 4
/-- fsnotify `Rename` bit. -/
def opRename : Nat := 8
/-- fsnotify `Chmod` bit. -/
def opChmod : Nat := 16

/-- Models `event.Has(op)`: the event's bitmask contains the operation. -/
def hasOp (event op : Nat) : Bool := event &&& op ≠ 0

/-- One resolution of the `select` in the `watchFile` goroutine:
the context is done, an event arrives on `watcher.Events` (with its op
bitmask), `watcher.Events` is closed (`ok = false`), or a value arrives on
`watcher.Errors`. -/
inductive FileInput where
  | ctxDone
  | event (op : Nat)
  | eventsClosed
  | watchErr
deriving DecidableEq, Repr

/-- One iteration of the `watchFile` goroutine's loop.
`none` = the goroutine returns (running `defer close(ret)` and
`defer watcher.Close()`); `some none` = it continues without sending;
`some (some ())` = it sends one signal on `ret` and continues. -/
def watchFileStep (i : FileInput) : Option (Option Unit) :=
  match i with
  | .ctxDone =>
    -- the `case <-ctx.Done():` body in the source is empty: the loop continues
    some none
  | .event op =>
    if hasOp op opRemove || hasOp op opRename then none
    else if hasOp op opCreate then some none
    else some (some ())
  | .eventsClosed => none
  | .watchErr => none

/-- The `watchFile` goroutine run over the inputs its `select` resolves, in
order: the list of unit signals it sends on `ret`, and whether it returned
(closing `ret` and the fsnotify watcher).  An exhausted input list with the
flag `false` models the goroutine still blocked in `select`. -/
def watchFileRun : List FileInput → List Unit × Bool
  | [] => ([], false)
  | i :: rest =>
    match watchFileStep i with
    | none => ([], true)
    | some none => watchFileRun rest
    | some (some _) => (() :: (watchFileRun rest).1, (watchFileRun rest).2)

/-! ## Setup path of `Watch` and `watchFile` (the synchronous part) -/

/-- The outcome of the effectful calls the setup path of `Watch` makes:
whether `os.Stat` reports the path as existing, whether
`fsnotify.NewWatcher()` succeeds, and whether `watcher.Add(filepath)`
succeeds. -/
structure SetupOutcome where
  statExists : Bool
  newWatcherOk : Bool
  addOk : Bool
deriving DecidableEq, Repr

/-- The synchronous part of `watchFile` (before its goroutine starts).
`Except.error` models the `(nil, err)` returns.  The source's line
`if watcher.Add(filepath); err != nil` calls `Add` in the if-statement's
init position, discards its result, and tests the `err` still holding
`fsnotify.NewWatcher()`'s error — which is nil on this branch — so the
`failed to watch file` return is dead code; the embedding reproduces that. -/
def watchFileSetup (s : SetupOutcome) : Except String Unit :=
  let newWatcherErr : Option String :=
    if s.newWatcherOk then none else some "fsnotify init error"
  match newWatcherErr with
  | some e => .error ("failed to create watcher: " ++ e)
  | none =>
    let _addResult : Option String :=
      if s.addOk then none else some "add error"
    -- the condition tests `newWatcherErr` (the Go variable `err`), not `_addResult`
    match newWatcherErr with
    | some e => .error ("failed to watch file: " ++ e)
    | none => .ok ()

/-- The synchronous part of `Watch`: the `os.Stat` existence check, then
`watchFile`'s setup. `.ok ()` models `Watch` returning a usable channel
with both watcher goroutines started; `.error` models `(nil, err)`, with
no goroutine started. -/
def watchSetup (s : SetupOutcome) : Except String Unit :=
  if ¬s.statExists then .error "file does not exist"
  else
    match watchFileSetup s with
    | .error e => .error ("failed to get file watcher: " ++ e)
    | .ok _ => .ok ()

/-! ## The symlink-chain watcher (`watchSymlinks`) -/

/-- The body of the `time.After` case of the `watchSymlinks` goroutine:
scan the recorded chain in order under the current filesystem state `rl`;
`true` = the goroutine returns (a `Readlink` failed, or a freshly read
target differs from the recorded one), `false` = every edge re-read and
unchanged, keep polling. -/
def checkChain (rl : ReadLink) : List Symlink → Bool
  | [] => false
  | e :: rest =>
    match rl e.link with
    | none => true
    | some target => if target ≠ e.target then true else checkChain rl rest

/-- One resolution of the `select` in the `watchSymlinks` goroutine: the
context is done, or the 1-second timer fires with the filesystem then in
state `rl`. -/
inductive SymInput where
  | ctxDone
  | tick (rl : ReadLink)

/-- An operation a goroutine performs on its output channel. -/
inductive ChanOp where
  | send
  | close
deriving DecidableEq, Repr

/-- The `watchSymlinks` goroutine run over the inputs its `select` resolves
in order, with the chain snapshot `chain` recorded once before the loop:
the trace of operations it performs on `retChan`.  Each tick is checked
against the original `chain`; on drift or cancellation the goroutine
returns and `defer close(retChan)` runs. -/
def watchSymlinksRun (chain : List Symlink) : List SymInput → List ChanOp
  | [] => []
  | .ctxDone :: _ => [.close]
  | .tick rl :: rest =>
    if checkChain rl chain then [.close] else watchSymlinksRun chain rest

/-- The tick index (0-based) at which the `watchSymlinks` goroutine returns
and closes its channel, when the inputs are the timer ticks carrying the
filesystem states `states` and the context is never cancelled; `none` = it
is still polling after all of them. -/
def watchSymlinksClosesAt (chain : List Symlink) : List ReadLink → Option Nat
  | [] => none
  | rl :: rest =>
    if checkChain rl chain then some 0
    else (watchSymlinksClosesAt chain rest).map (· + 1)

/-! ## The orchestrator goroutine inside `Watch` -/

/-- One resolution of the orchestrator's `select`: the context is done, a
signal arrives from `fileWatcher` (`ok = true`), `fileWatcher` is closed
(`ok = false`), or the receive from `symlinksChan` completes (which, as
`watchSymlinks` never sends, means that channel closed). -/
inductive OrchInput where
  | ctxDone
  | fileSignal
  | fileClosed
  | symClosed
deriving DecidableEq, Repr

/-- Which of the three terminal causes made the orchestrator return. -/
inductive CloseCause where
  | cancelled
  | fileStreamClosed
  | chainStreamClosed
deriving DecidableEq, Repr

/-- The orchestrator goroutine of `Watch` run over the inputs its `select`
resolves in order: the trace of operations on the returned channel
`retChan`, and the cause of its return when it returned (`defer
close(retChan)` emits the `.close`).  A signal from `fileWatcher` is
forwarded as one send on `retChan`; closure of either source stream, or
cancellation, makes the goroutine return. -/
def watchRun : List OrchInput → List ChanOp × Option CloseCause
  | [] => ([], none)
  | .ctxDone :: _ => ([.close], some .cancelled)
  | .fileSignal :: rest =>
    (.send :: (watchRun rest).1, (watchRun rest).2)
  | .fileClosed :: _ => ([.close], some .fileStreamClosed)
  | .symClosed :: _ => ([.close], some .chainStreamClosed)

/-! ## Helper lemmas -/

/-- When every input is a forwardable event, the `watchFile` loop sends one
signal per raw event and does not return. -/
lemma watchFileRun_forwards (evs : List Nat)
    (h : ∀ e ∈ evs, watchFileStep (.event e) = some (some ())) :
    watchFileRun (evs.map FileInput.event) = (evs.map fun _ => (), false) := by
  induction evs with
  | nil => rfl
  | cons e rest ih =>
    have he := h e (by simp)
    have hrest := ih fun x hx => h x (by simp [hx])
    simp [watchFileRun, he, hrest]

/-- The chain scan reports drift exactly when some recorded edge no longer
reads back as its recorded target. -/
lemma checkChain_iff (rl : ReadLink) (chain : List Symlink) :
    checkChain rl chain = true ↔ ∃ e ∈ chain, rl e.link ≠ some e.target := by
  induction chain with
  | nil => simp [checkChain]
  | cons e rest ih =>
    cases h : rl e.link with
    | none =>
      simp only [checkChain, h]
      constructor
      · intro _
        exact ⟨e, by simp, by simp [h]⟩
      · intro _
        trivial
    | some t =>
      by_cases ht : t = e.target
      · subst ht
        simp only [checkChain, h, ne_eq, not_true_eq_false, if_false, ih]
        constructor
        · rintro ⟨x, hx, hne⟩
          exact ⟨x, by simp [hx], hne⟩
        · rintro ⟨x, hx, hne⟩
          rcases (by simpa using hx : x = e ∨ x ∈ rest) with hxe | hxr
          · subst hxe
            exact absurd h hne
          · exact ⟨x, hxr, hne⟩
      · simp only [checkChain, h, ne_eq, ht, not_false_eq_true, if_true, true_iff]
        exact ⟨e, by simp, by simp [h, ht]⟩

/-- Characterisation of the tick at which the chain-watcher loop returns:
it is the first tick whose filesystem state makes the scan report drift. -/
lemma watchSymlinksClosesAt_iff (chain : List Symlink) (states : List ReadLink)
    (i : Nat) :
    watchSymlinksClosesAt chain states = some i ↔
      (∃ rli, states.get? i = some rli ∧ checkChain rli chain = true) ∧
        ∀ j, j < i → ∀ rlj, states.get? j = some rlj → checkChain rlj chain = false := by
  induction states generalizing i with
  | nil => simp [watchSymlinksClosesAt]
  | cons rl rest ih =>
    by_cases h : checkChain rl chain
    · simp only [watchSymlinksClosesAt, h, if_true]
      cases i with
      | zero =>
        simp [h]
      | succ k =>
        constructor
        · intro hk
          exact absurd hk (by simp)
        · rintro ⟨-, hfirst⟩
          have := hfirst 0 (Nat.succ_pos k) rl rfl
          rw [h] at this
          exact absurd this (by simp)
    · simp only [watchSymlinksClosesAt, h, if_false]
      cases i with
      | zero =>
        constructor
        · intro hk
          rcases Option.map_eq_some'.mp hk with ⟨m, -, hm⟩
          exact absurd hm (Nat.succ_ne_zero m)
        · rintro ⟨⟨rli, hget, hcheck⟩, -⟩
          rw [show (rl :: rest).get? 0 = some rl from rfl] at hget
          cases hget
          rw [hcheck] at h
          exact absurd rfl h
      | succ k =>
        constructor
        · intro hk
          rcases Option.map_eq_some'.mp hk with ⟨m, hm, hmk⟩
          have hmk' : m = k := Nat.succ_injective hmk
          rw [hmk'] at hm
          rcases (ih k).mp hm with ⟨hex, hfirst⟩
          refine ⟨hex, ?_⟩
          intro j hj rlj hget
          cases j with
          | zero =>
            cases hget
            simpa using h
          | succ j' =>
            exact hfirst j' (Nat.lt_of_succ_lt_succ hj) rlj hget
        · rintro ⟨hex, hfirst⟩
          have hrest : watchSymlinksClosesAt chain rest = some k := by
            refine (ih k).mpr ⟨hex, ?_⟩
            intro j hj rlj hget
            exact hfirst (j + 1) (Nat.succ_lt_succ hj) rlj hget
          simp [hrest]

/-- Every channel operation the orchestrator performs is a send or the one
final close, and the close comes with a recorded cause. -/
lemma watchRun_shape (inputs : List OrchInput) :
    (∃ n, watchRun inputs = (List.replicate n ChanOp.send, none)) ∨
    (∃ n c, watchRun inputs =
      (List.replicate n ChanOp.send ++ [ChanOp.close], some c)) := by
  induction inputs with
  | nil => exact Or.inl ⟨0, rfl⟩
  | cons i rest ih =>
    cases i with
    | ctxDone => exact Or.inr ⟨0, .cancelled, rfl⟩
    | fileSignal =>
      rcases ih with ⟨n, hn⟩ | ⟨n, c, hn⟩
      · exact Or.inl ⟨n + 1, by simp [watchRun, hn, List.replicate_succ]⟩
      · exact Or.inr ⟨n + 1, c, by simp [watchRun, hn, List.replicate_succ]⟩
    | fileClosed => exact Or.inr ⟨0, .fileStreamClosed, rfl⟩
    | symClosed => exact Or.inr ⟨0, .chainStreamClosed, rfl⟩

/-- Once the orchestrator emits the close, nothing follows it, and a cause
was recorded. -/
lemma watchRun_close_last (inputs : List OrchInput) :
    ∀ pre post, (watchRun inputs).1 = pre ++ ChanOp.close :: post →
      post = [] ∧ ∃ c, (watchRun inputs).2 = some c := by
  induction inputs with
  | nil =>
    intro pre post heq
    exact absurd heq (by simp [watchRun])
  | cons i rest ih =>
    intro pre post heq
    cases i with
    | ctxDone =>
      simp only [watchRun] at heq
      have hlen := congrArg List.length heq
      simp [List.length_append] at hlen
      exact ⟨List.eq_nil_of_length_eq_zero (by omega), CloseCause.cancelled, rfl⟩
    | fileSignal =>
      cases pre with
      | nil =>
        exfalso
        have h1 : ChanOp.send :: (watchRun rest).1 = ChanOp.close :: post := heq
        cases List.cons.inj h1 |>.1
      | cons a pre' =>
        have h1 : ChanOp.send :: (watchRun rest).1 = a :: (pre' ++ ChanOp.close :: post) := heq
        have h2 := List.cons.inj h1
        rcases ih pre' post h2.2 with ⟨hpost, c, hc⟩
        exact ⟨hpost, c, hc⟩
    | fileClosed =>
      simp only [watchRun] at heq
      have hlen := congrArg List.length heq
      simp [List.length_append] at hlen
      exact ⟨List.eq_nil_of_length_eq_zero (by omega), CloseCause.fileStreamClosed, rfl⟩
    | symClosed =>
      simp only [watchRun] at heq
      have hlen := congrArg List.length heq
      simp [List.length_append] at hlen
      exact ⟨List.eq_nil_of_length_eq_zero (by omega), CloseCause.chainStreamClosed, rfl⟩

/-- Equality of the code's tracer with the spec-worded tracer, for all fuel. -/
lemma trace_eq_spec (rl : ReadLink) : ∀ n c, traceSymlinks rl n c = traceSpec rl n c := by
  intro n
  induction n with
  | zero => intro c; rfl
  | succ n ih =>
    intro c
    cases h : rl c with
    | some t => simp [traceSymlinks, traceSpec, h, ih]
    | none => simp [traceSymlinks, traceSpec, h, ih]

/-- On a filesystem with no symlinks at all, the tracer reaches the root in
at most `length + 1` iterations and returns the empty chain. -/
lemma trace_nolinks (rl : ReadLink) (hrl : ∀ p, rl p = none) :
    ∀ k c, List.length c ≤ k → traceSymlinks rl (k + 1) c = some [] := by
  intro k
  induction k with
  | zero =>
    intro c hc
    have hnil : c = [] := List.eq_nil_of_length_eq_zero (Nat.le_zero.mp hc)
    subst hnil
    simp [traceSymlinks, hrl, Path.dir]
  | succ k ih =>
    intro c hc
    by_cases hd : Path.dir c = c
    · simp [traceSymlinks, hrl, hd]
    · have hne : c ≠ [] := by
        intro h0
        subst h0
        exact hd rfl
      have h1 : (Path.dir c).length = c.length - 1 := by
        simp [Path.dir]
      have h2 : 0 < c.length := List.length_pos.mpr hne
      have hlen : (Path.dir c).length ≤ k := by omega
      have hstep : traceSymlinks rl (k + 1 + 1) c = traceSymlinks rl (k + 1) (Path.dir c) := by
        simp only [traceSymlinks, hrl c]
        rw [if_neg hd]
      rw [hstep]
      exact ih (Path.dir c) hlen

/-- On the self-referential symlink filesystem, the tracer's loop never
reaches its stop condition: every fuel amount is exhausted. -/
lemma trace_cyclic_none : ∀ n, traceSymlinks cyclicRL n ["a"] = none := by
  intro n
  induction n with
  | zero => rfl
  | succ n ih =>
    have hc : cyclicRL ["a"] = some ["a"] := by simp [cyclicRL]
    simp [traceSymlinks, hc, ih]

/-- The cursor-successor relation of the tracer loop: `stepRel rl next c`
holds when one iteration moves the cursor from `c` to `next`. -/
def stepRel (rl : ReadLink) (next c : Path) : Prop := traceStep rl c = some next

/-! ## Claim theorems -/

/-- C1: every raw event of the direct file watcher is classified exactly as
the spec says: Remove/Rename makes the goroutine return (closing the signal
channel and stopping); otherwise Create is dropped with no effect; otherwise
exactly one signal is forwarded per raw event, with no coalescing, so a run
of forwardable raw events yields exactly one signal each. -/
theorem watchFile_event_classification (op : Nat) (evs : List Nat) :
    (watchFileStep (.event op) = none ↔ (hasOp op opRemove || hasOp op opRename) = true) ∧
    (watchFileStep (.event op) = some none ↔
      ((hasOp op opRemove || hasOp op opRename) = false ∧ hasOp op opCreate = true)) ∧
    (watchFileStep (.event op) = some (some ()) ↔
      ((hasOp op opRemove || hasOp op opRename) = false ∧ hasOp op opCreate = false)) ∧
    ((∀ e ∈ evs, (hasOp e opRemove || hasOp e opRename) = false ∧ hasOp e opCreate = false) →
      watchFileRun (evs.map FileInput.event) = (evs.map fun _ => (), false)) := by
  refine ⟨?_, ?_, ?_, ?_⟩
  · cases h1 : (hasOp op opRemove || hasOp op opRename) with
    | true => simp [watchFileStep, h1]
    | false =>
      cases h2 : hasOp op opCreate with
      | true => simp [watchFileStep, h1, h2]
      | false => simp [watchFileStep, h1, h2]
  · cases h1 : (hasOp op opRemove || hasOp op opRename) with
    | true => simp [watchFileStep, h1]
    | false =>
      cases h2 : hasOp op opCreate with
      | true => simp [watchFileStep, h1, h2]
      | false => simp [watchFileStep, h1, h2]
  · cases h1 : (hasOp op opRemove || hasOp op opRename) with
    | true => simp [watchFileStep, h1]
    | false =>
      cases h2 : hasOp op opCreate with
      | true => simp [watchFileStep, h1, h2]
      | false => simp [watchFileStep, h1, h2]
  · intro hall
    refine watchFileRun_forwards evs (fun e he => ?_)
    simp [watchFileStep, (hall e he).1, (hall e he).2]

/-- Witness for C1 at concrete events: a Remove event is terminal, and two
rapid Write events yield exactly two forwarded signals. -/
theorem watchFile_event_classification_witness :
    watchFileStep (.event opRemove) = none ∧
    watchFileRun ([opWrite, opWrite].map FileInput.event) = ([(), ()], false) := by
  have h1 := watchFile_event_classification opRemove []
  have h2 := watchFile_event_classification opWrite [opWrite, opWrite]
  exact ⟨h1.1.mpr (by decide), h2.2.2.2 (by decide)⟩

/-- C5 (code bug): with the path present and `fsnotify.NewWatcher()`
succeeding but `watcher.Add(filepath)` failing, `Watch` nevertheless
returns success and starts the watch — the source discards `Add`'s error
because `if watcher.Add(filepath); err != nil` tests the stale `err`. -/
theorem watch_add_error_swallowed :
    watchFileSetup ⟨true, true, false⟩ = .ok () ∧
    watchSetup ⟨true, true, false⟩ = .ok () :=
  ⟨rfl, rfl⟩

/-- C6 (code bug): when the cancellation token fires, the `watchFile`
goroutine's loop continues instead of stopping — the `case <-ctx.Done():`
body is empty — and a later write event is still processed and forwarded;
the goroutine has not returned, so the fsnotify watcher is not released. -/
theorem watchFile_cancellation_not_stopping :
    watchFileStep FileInput.ctxDone = some none ∧
    watchFileRun [FileInput.ctxDone, FileInput.event opWrite] = ([()], false) :=
  ⟨rfl, rfl⟩

/-- C9: for a path that does not exist when `Watch` is called, `Watch`
fails synchronously with the "does not exist" error; no channel is
returned and no watcher is started. -/
theorem watch_missing_path_fails (s : SetupOutcome) (h : s.statExists = false) :
    watchSetup s = .error "file does not exist" := by
  simp [watchSetup, h]

/-- Witness for C9 at a concrete setup outcome. -/
theorem watch_missing_path_fails_witness :
    watchSetup ⟨false, true, true⟩ = .error "file does not exist" :=
  watch_missing_path_fails ⟨false, true, true⟩ rfl

/-- C10: whatever the chain (empty or not) and however the chain watcher's
`select` resolves, every operation the goroutine performs on its output
channel is the single closure — it never sends a value, so a completed
receive on that channel can only mean the channel closed. -/
theorem watchSymlinks_never_sends (chain : List Symlink) (inputs : List SymInput) :
    ∀ op ∈ watchSymlinksRun chain inputs, op = ChanOp.close := by
  induction inputs with
  | nil =>
    intro op hop
    exact absurd hop (List.not_mem_nil op)
  | cons i rest ih =>
    cases i with
    | ctxDone =>
      intro op hop
      have h1 : op ∈ [ChanOp.close] := hop
      simpa using h1
    | tick rl =>
      intro op hop
      by_cases h : checkChain rl chain = true
      · simp only [watchSymlinksRun] at hop
        rw [if_pos h] at hop
        simpa using hop
      · simp only [watchSymlinksRun] at hop
        rw [if_neg h] at hop
        exact ih op hop

/-- Witness for C10 at a concrete run: the one operation emitted on
cancellation is the closure. -/
theorem watchSymlinks_never_sends_witness : ChanOp.close = ChanOp.close :=
  watchSymlinks_never_sends [] [SymInput.ctxDone] ChanOp.close
    (List.mem_singleton.mpr rfl)

/-- C2: the chain watcher's scan reports drift exactly when some edge of the
original snapshot no longer reads back as its recorded target (a failed read
or a different target), and the poll loop — always comparing against that
original snapshot — closes its channel precisely at the first tick whose
filesystem state drifts, never examining a later tick (terminal, not
retried). -/
theorem watchSymlinks_drift_terminal (rl : ReadLink) (chain : List Symlink)
    (states : List ReadLink) (i : Nat) :
    (checkChain rl chain = true ↔ ∃ e ∈ chain, rl e.link ≠ some e.target) ∧
    (watchSymlinksClosesAt chain states = some i ↔
      (∃ rli, states.get? i = some rli ∧ checkChain rli chain = true) ∧
        ∀ j, j < i → ∀ rlj, states.get? j = some rlj → checkChain rlj chain = false) :=
  ⟨checkChain_iff rl chain, watchSymlinksClosesAt_iff chain states i⟩

/-- Witness for C2 at a concrete one-edge chain whose link has been
repointed: the scan reports drift and the loop closes at the first tick. -/
theorem watchSymlinks_drift_terminal_witness :
    checkChain (fun _ => some ["b"]) [⟨["a"], ["l"]⟩] = true ∧
    watchSymlinksClosesAt [⟨["a"], ["l"]⟩] [fun _ => some ["b"]] = some 0 := by
  have h := watchSymlinks_drift_terminal (fun _ => some ["b"]) [⟨["a"], ["l"]⟩]
    [fun _ => some ["b"]] 0
  have hc : checkChain (fun _ => some ["b"]) [⟨["a"], ["l"]⟩] = true :=
    h.1.mpr ⟨⟨["a"], ["l"]⟩, by simp, by decide⟩
  refine ⟨hc, h.2.mpr ⟨⟨fun _ => some ["b"], rfl, hc⟩, ?_⟩⟩
  intro j hj
  exact absurd hj (Nat.not_lt_zero j)

/-- C3: over every resolution order of its `select`, the orchestrator's
output channel is closed at most once, nothing is ever emitted after the
close, and whenever the close happens a cause is recorded — one of the
three constructors of `CloseCause` (cancellation, direct-watcher stream
closed, chain-watcher stream closed); while no cause is recorded the close
has not happened. -/
theorem watch_handle_closes_once (inputs : List OrchInput) :
    ((watchRun inputs).1.count ChanOp.close ≤ 1) ∧
    (∀ pre post, (watchRun inputs).1 = pre ++ ChanOp.close :: post →
      post = [] ∧ ∃ c, (watchRun inputs).2 = some c) ∧
    ((watchRun inputs).2 = none → ChanOp.close ∉ (watchRun inputs).1) := by
  refine ⟨?_, watchRun_close_last inputs, ?_⟩
  · rcases watchRun_shape inputs with ⟨n, hn⟩ | ⟨n, c, hn⟩ <;>
      rw [hn] <;> simp [List.count_replicate]
  · intro hnone
    rcases watchRun_shape inputs with ⟨n, hn⟩ | ⟨n, c, hn⟩
    · rw [hn]
      intro hmem
      have hmem' : ChanOp.close ∈ List.replicate n ChanOp.send := hmem
      exact absurd (List.eq_of_mem_replicate hmem') (by decide)
    · rw [hn] at hnone
      simp at hnone

/-- Witness for C3 at concrete runs: a forwarded signal followed by
cancellation closes with a cause and nothing after the close, and a run
that never saw a terminal input has no close. -/
theorem watch_handle_closes_once_witness :
    (([] : List ChanOp) = [] ∧
      ∃ c, (watchRun [OrchInput.fileSignal, OrchInput.ctxDone]).2 = some c) ∧
    ChanOp.close ∉ (watchRun [OrchInput.fileSignal]).1 := by
  have h1 := watch_handle_closes_once [OrchInput.fileSignal, OrchInput.ctxDone]
  have h2 := watch_handle_closes_once [OrchInput.fileSignal]
  exact ⟨h1.2.1 [ChanOp.send] [] (by decide), h2.2.2 (by decide)⟩

/-- C4: the code's tracer follows exactly the spec's cursor algorithm (the
two definitions agree for every filesystem state, fuel and path, so the
chain is built in discovery order, leaf-most first), and when no symlink
participates in resolving the path the resulting chain is empty. -/
theorem traceSymlinks_matches_spec (rl : ReadLink) (n : Nat) (c : Path) :
    traceSymlinks rl n c = traceSpec rl n c ∧
    ((∀ p, rl p = none) → ∃ m, traceSymlinks rl m c = some []) :=
  ⟨trace_eq_spec rl n c,
    fun hrl => ⟨c.length + 1, trace_nolinks rl hrl c.length c (Nat.le_refl _)⟩⟩

/-- Witness for C4 on a link-free filesystem: the tracer agrees with the
spec's algorithm and returns the empty chain. -/
theorem traceSymlinks_matches_spec_witness :
    traceSymlinks (fun _ => none) 2 ["a"] = traceSpec (fun _ => none) 2 ["a"] ∧
    ∃ m, traceSymlinks (fun _ => none) m ["a"] = some [] := by
  have h := traceSymlinks_matches_spec (fun _ => none) 2 ["a"]
  exact ⟨h.1, h.2 fun _ => rfl⟩

/-- C7 counterexample: on the filesystem whose symlink `["a"]` targets
itself, the tracer's loop never reaches its stop condition — no amount of
fuel makes it return — so `trace` does not terminate on every filesystem
state with symlink cycles. -/
theorem traceSymlinks_cycle_diverges : ¬ traceTerminates cyclicRL ["a"] := by
  rintro ⟨n, hn⟩
  rw [trace_cyclic_none n] at hn
  simp at hn

/-- C7 amended: the tracer terminates on every path from which the loop's
cursor-successor relation admits no infinite chain (in particular on every
symlink-acyclic filesystem); only a reachable symlink cycle can make it
run forever. -/
theorem traceSymlinks_terminates_of_acc (rl : ReadLink) (c : Path)
    (h : Acc (stepRel rl) c) : traceTerminates rl c := by
  induction h with
  | intro c hacc ih =>
    cases hs : traceStep rl c with
    | none =>
      refine ⟨1, ?_⟩
      unfold traceStep at hs
      cases hrc : rl c with
      | some t =>
        rw [hrc] at hs
        exact absurd hs (by simp)
      | none =>
        rw [hrc] at hs
        by_cases hd : Path.dir c = c
        · simp [traceSymlinks, hrc, hd]
        · rw [if_neg hd] at hs
          exact absurd hs (by simp)
    | some next =>
      rcases ih next hs with ⟨n, hn⟩
      refine ⟨n + 1, ?_⟩
      unfold traceStep at hs
      cases hrc : rl c with
      | some t =>
        rw [hrc] at hs
        have ht : t = next := by simpa using hs
        subst ht
        simpa [traceSymlinks, hrc] using hn
      | none =>
        rw [hrc] at hs
        by_cases hd : Path.dir c = c
        · rw [if_pos hd] at hs
          exact absurd hs (by simp)
        · rw [if_neg hd] at hs
          have hdc : Path.dir c = next := by simpa using hs
          have hstep : traceSymlinks rl (n + 1) c = traceSymlinks rl n (Path.dir c) := by
            simp only [traceSymlinks, hrc]
            rw [if_neg hd]
          rw [hstep, hdc]
          exact hn

/-- Witness for the amended C7 on a concrete link-free filesystem: the
two-step descent `["a"] → [] → stop` is accessible, so the tracer
terminates there. -/
theorem traceSymlinks_terminates_of_acc_witness :
    traceTerminates (fun _ => none) ["a"] := by
  apply traceSymlinks_terminates_of_acc
  refine Acc.intro _ (fun y hy => ?_)
  have hy2 : some ([] : Path) = some y := hy
  cases hy2
  refine Acc.intro _ (fun z hz => ?_)
  have hz2 : (none : Option Path) = some z := hz
  cases hz2

/-- C8: however many direct-watcher signals are pending, the moment the
orchestrator's `select` takes the chain-watcher-closed case it closes the
handle and stops: everything resolved before that point is forwarded,
nothing after it is, and the recorded cause is the chain stream's closure. -/
theorem watch_chain_drift_no_forward (pre post : List OrchInput)
    (h : ∀ i ∈ pre, i = OrchInput.fileSignal) :
    watchRun (pre ++ OrchInput.symClosed :: post) =
      (pre.map (fun _ => ChanOp.send) ++ [ChanOp.close],
        some CloseCause.chainStreamClosed) := by
  induction pre with
  | nil => rfl
  | cons i rest ih =>
    have hi : i = OrchInput.fileSignal := h i (List.mem_cons_self i rest)
    subst hi
    have hrest := ih (fun j hj => h j (List.mem_cons_of_mem _ hj))
    simp [watchRun, hrest]

/-- Witness for C8 at a concrete run: one forwarded signal, then the chain
stream closes while another direct-watcher signal is pending; the pending
signal is not forwarded. -/
theorem watch_chain_drift_no_forward_witness :
    watchRun [OrchInput.fileSignal, OrchInput.symClosed, OrchInput.fileSignal] =
      ([ChanOp.send, ChanOp.close], some CloseCause.chainStreamClosed) := by
  have h := watch_chain_drift_no_forward [OrchInput.fileSignal] [OrchInput.fileSignal]
    (by intro i hi; simpa using hi)
  exact h

end Filewatch
